import Mathlib

/-!
Shallow embedding of the AlphaFund Soroban contract
(src/contracts/stellar_fund/src/lib.rs).

Modelling conventions:
- Contract addresses are natural numbers.
- The persistent key-value store is a record with one field per DataKey
  variant; absent keys are `none` (resp. an absent entry in an
  association list for the address-keyed keys).  Reads with
  `unwrap_or(d)` become `Option.getD`.
- Rust i128 arithmetic is modelled on unbounded Int; i128 division
  truncates toward zero, which is Int.tdiv.  Division by zero panics in
  Rust, so the investor-distribution loop returns an explicit error in
  that case instead of the silent 0 that Int.tdiv would produce.
- A contract panic aborts the whole invocation and the host rolls back
  every storage write and cross-contract transfer of that invocation, so
  a panicking entry point is modelled as `Except.error` with no state
  change and no transfer output.
- The token contract is an external collaborator: close_fund reads the
  fund balance from it twice (before the fee phase and before the
  residual phase) and those two oracle answers are the `bal1`/`bal2`
  parameters; `manager.require_auth()` is an external authorization
  oracle, modelled by the Boolean parameter `authOk`.
- Token transfers performed by an entry point are returned as an output
  list of (recipient, amount) pairs, in invocation order.
-/

namespace StellarFund

/-- Contract addresses, modelled as natural numbers. -/
abbrev Addr := Nat

/-- The FundState enum of the contract. -/
inductive FundState where
  | OpenToInvestors
  | Trading
  | Closed
deriving Repr, DecidableEq

/-- Abort causes of the entry points.  The Rust code signals each of
them by panicking (assert macros, require_auth failure, or an i128
division with zero divisor). -/
inductive Err where
  | invalidParameter
  | unauthorized
  | alreadyClosed
  | divisionByZero
deriving Repr, DecidableEq

/-- Rust i128 division: truncation toward zero. -/
def rdiv (a b : Int) : Int := Int.tdiv a b

/-- Lookup in an address-keyed storage map, with the `unwrap_or(0)`
default used by every such read in the contract. -/
def lookupD : List (Addr × Int) → Addr → Int
  | [], _ => 0
  | (k, v) :: rest, a => if k = a then v else lookupD rest a

/-- Write to an address-keyed storage map (`set` overwrites the entry
for the key if present, otherwise stores a new entry). -/
def setVal : List (Addr × Int) → Addr → Int → List (Addr × Int)
  | [], a, v => [(a, v)]
  | (k, w) :: rest, a, v =>
      if k = a then (a, v) :: rest else (k, w) :: setVal rest a v

/-- The persistent storage of one fund instance: one field per DataKey
variant.  `none` (resp. a missing association-list entry) is an unset
key. -/
structure FundSt where
  fundState : Option FundState
  manager : Option Addr
  traders : Option (List Addr)
  investors : Option (List Addr)
  tradingAllocation : List (Addr × Int)
  investorDeposit : List (Addr × Int)
  totalDeposited : Option Int
  performanceFeePercent : Option Int
  token : Option Addr
deriving Repr, DecidableEq

instance {ε α : Type} [DecidableEq ε] [DecidableEq α] :
    DecidableEq (Except ε α) := fun x y =>
  match x, y with
  | .ok a, .ok b =>
      if h : a = b then isTrue (by rw [h])
      else isFalse (fun hc => h (Except.ok.inj hc))
  | .error a, .error b =>
      if h : a = b then isTrue (by rw [h])
      else isFalse (fun hc => h (Except.error.inj hc))
  | .ok _, .error _ => isFalse (fun hc => Except.noConfusion hc)
  | .error _, .ok _ => isFalse (fun hc => Except.noConfusion hc)

/-- Storage with no key set: the state before `create` is ever called. -/
def emptyFund : FundSt :=
  { fundState := none, manager := none, traders := none, investors := none,
    tradingAllocation := [], investorDeposit := [], totalDeposited := none,
    performanceFeePercent := none, token := none }

/-- `get_traders`: read DataKey::Traders with `unwrap_or(vec![])`. -/
def get_traders (st : FundSt) : List Addr := st.traders.getD []

/-- `get_investors`: read DataKey::Investors with `unwrap_or(vec![])`. -/
def get_investors (st : FundSt) : List Addr := st.investors.getD []

/-- Read DataKey::TradingAllocation(a) with `unwrap_or(0)`. -/
def allocOf (st : FundSt) (a : Addr) : Int := lookupD st.tradingAllocation a

/-- Read DataKey::InvestorDeposit(a) with `unwrap_or(0)`. -/
def depositOf (st : FundSt) (a : Addr) : Int := lookupD st.investorDeposit a

/-- `create(env, manager, performance_fee_percent, token)`.  The only
guard in the code is `assert!(performance_fee_percent < 100)`; on
success it overwrites FundState, Manager, the allocation of the
manager (to 0), PerformanceFeePercent, Token, Traders (to the
singleton manager list) and Investors (to the empty list), leaving
TotalDeposited, every InvestorDeposit entry and every other trader
allocation as they were. -/
def create (st : FundSt) (manager : Addr) (performance_fee_percent : Int)
    (token : Addr) : Except Err FundSt :=
  if performance_fee_percent < 100 then
    .ok { st with
      fundState := some .OpenToInvestors,
      manager := some manager,
      tradingAllocation := setVal st.tradingAllocation manager 0,
      performanceFeePercent := some performance_fee_percent,
      token := some token,
      traders := some [manager],
      investors := some [] }
  else
    .error .invalidParameter

/-- `add_investor(env, investor, deposit_amount)`: appends the investor
to the Investors list when not already present, then stores
`current_deposit + deposit_amount` under InvestorDeposit(investor).
The code performs no check at all (no fund-state guard, no sign guard),
so the operation is total. -/
def add_investor (st : FundSt) (investor : Addr) (deposit_amount : Int) :
    FundSt :=
  let investors := get_investors st
  let st1 :=
    if investor ∈ investors then st
    else { st with investors := some (investors ++ [investor]) }
  let current_deposit := depositOf st1 investor
  { st1 with
    investorDeposit :=
      setVal st1.investorDeposit investor (current_deposit + deposit_amount) }

/-- The performance-fee transfers of `close_fund` for a given total fee:
for each trader in registry order whose stored allocation is positive,
one transfer of `(total_performance_fee * alloc_percent) / 100`.  The
guard is on the allocation, not on the computed fee. -/
def traderFeeTransfers (st : FundSt) (total_performance_fee : Int) :
    List (Addr × Int) :=
  (get_traders st).filterMap fun trader =>
    let alloc_percent := allocOf st trader
    if alloc_percent > 0 then
      some (trader, rdiv (total_performance_fee * alloc_percent) 100)
    else none

/-- The whole fee phase of `close_fund`: run only when the first balance
read exceeds TotalDeposited, with
`total_performance_fee = (profit * performance_fee_percent) / 100`. -/
def feePhase (st : FundSt) (bal : Int) : List (Addr × Int) :=
  let total_deposited := st.totalDeposited.getD 0
  if bal > total_deposited then
    let profit := bal - total_deposited
    let performance_fee_percent := st.performanceFeePercent.getD 0
    let total_performance_fee := rdiv (profit * performance_fee_percent) 100
    traderFeeTransfers st total_performance_fee
  else []

/-- The residual-distribution loop of `close_fund` over the investor
list: for each investor whose stored deposit is positive the code
computes `percentage = (deposit_amt * 100) / total_deposited` and then
`(remaining_balance * percentage) / 100`, and transfers that amount
unconditionally.  When `total_deposited` is zero this division is a
Rust division by zero, i.e. a panic, modelled as an error. -/
def investorPayouts (st : FundSt) (total_deposited remaining_balance : Int) :
    List Addr → Except Err (List (Addr × Int))
  | [] => .ok []
  | investor :: rest =>
    let deposit_amt := depositOf st investor
    if deposit_amt > 0 then
      if total_deposited = 0 then .error .divisionByZero
      else
        match investorPayouts st total_deposited remaining_balance rest with
        | .error e => .error e
        | .ok tail =>
            let percentage := rdiv (deposit_amt * 100) total_deposited
            let fraction_to_pay := rdiv (remaining_balance * percentage) 100
            .ok ((investor, fraction_to_pay) :: tail)
    else investorPayouts st total_deposited remaining_balance rest

/-- `close_fund(env, manager)`.  `authOk` is the verdict of the
authorization oracle for `manager.require_auth()`; `bal1` and `bal2`
are the two answers of the token contract to the balance queries
(before the fee phase and before the residual phase).  On success the
result is the new storage plus the transfers in invocation order. -/
def close_fund (st : FundSt) (authOk : Bool) (bal1 bal2 : Int) :
    Except Err (FundSt × List (Addr × Int)) :=
  if authOk = false then .error .unauthorized
  else
    let state := st.fundState.getD .Closed
    if state = .Closed then .error .alreadyClosed
    else
      let total_deposited := st.totalDeposited.getD 0
      let fees := feePhase st bal1
      match investorPayouts st total_deposited bal2 (get_investors st) with
      | .error e => .error e
      | .ok payouts =>
          .ok ({ st with fundState := some .Closed }, fees ++ payouts)

/-- Floor-division payout formula as the specification words it:
`floor(remaining_balance * floor(deposit * 100 / total_deposited) / 100)`.
Spec-side definition, to be compared with the code-side
`investorPayouts`. -/
def payoutFloor (deposit total_deposited remaining_balance : Int) : Int :=
  Int.fdiv (remaining_balance * Int.fdiv (deposit * 100) total_deposited) 100

/-- The residual distribution as the specification words it: each
investor in registry order with positive recorded deposit receives the
floor-division payout. -/
def payoutsFloorSpec (st : FundSt) (total_deposited remaining_balance : Int) :
    List (Addr × Int) :=
  (get_investors st).filterMap fun investor =>
    let deposit_amt := depositOf st investor
    if deposit_amt > 0 then
      some (investor, payoutFloor deposit_amt total_deposited remaining_balance)
    else none

/-- Concrete storage used for the zero-amount-transfer scenario: one
trader with allocation 0, one investor with recorded deposit 1,
TotalDeposited stored as 10. -/
def stC7 : FundSt :=
  { fundState := some .OpenToInvestors, manager := some 0,
    traders := some [0], investors := some [1],
    tradingAllocation := [(0, 0)], investorDeposit := [(1, 1)],
    totalDeposited := some 10, performanceFeePercent := some 10,
    token := some 9 }

/-- Concrete storage used for the unchecked-deposit scenario: a Closed
fund whose investor 1 has recorded deposit 100. -/
def stC8 : FundSt :=
  { emptyFund with
    fundState := some .Closed, investors := some [1],
    investorDeposit := [(1, 100)] }

/-- Concrete storage used for the truncation scenario of the residual
distribution: investors 1 and 2 with deposits 1 and 2, TotalDeposited
stored as 3. -/
def stC1 : FundSt :=
  { fundState := some .OpenToInvestors, manager := some 0,
    traders := some [0], investors := some [1, 2],
    tradingAllocation := [(0, 0)], investorDeposit := [(1, 1), (2, 2)],
    totalDeposited := some 3, performanceFeePercent := some 10,
    token := some 9 }

lemma lookupD_setVal_self (m : List (Addr × Int)) (a : Addr) (v : Int) :
    lookupD (setVal m a v) a = v := by
  induction m with
  | nil => simp [setVal, lookupD]
  | cons p rest ih =>
      obtain ⟨k, w⟩ := p
      by_cases h : k = a
      · simp [setVal, lookupD, h]
      · simp [setVal, lookupD, h, ih]

lemma investorDeposit_registry_step (st : FundSt) (investor : Addr) :
    (if investor ∈ get_investors st then st
     else { st with
            investors := some (get_investors st ++ [investor]) }).investorDeposit
      = st.investorDeposit := by
  split <;> rfl

lemma depositOf_add_investor (st : FundSt) (investor : Addr) (amt : Int) :
    depositOf (add_investor st investor amt) investor =
      depositOf st investor + amt := by
  by_cases h : investor ∈ get_investors st <;>
    simp [add_investor, h, depositOf, lookupD_setVal_self]

lemma fundState_add_investor (st : FundSt) (investor : Addr) (amt : Int) :
    (add_investor st investor amt).fundState = st.fundState := by
  by_cases h : investor ∈ get_investors st <;> simp [add_investor, h]

lemma totalDeposited_add_investor (st : FundSt) (investor : Addr) (amt : Int) :
    (add_investor st investor amt).totalDeposited = st.totalDeposited := by
  by_cases h : investor ∈ get_investors st <;> simp [add_investor, h]

lemma get_investors_add_investor_mem (st : FundSt) (investor : Addr)
    (amt : Int) (h : investor ∈ get_investors st) :
    get_investors (add_investor st investor amt) = get_investors st := by
  simp only [add_investor]
  rw [if_pos h]
  rfl

lemma get_investors_add_investor_not_mem (st : FundSt) (investor : Addr)
    (amt : Int) (h : investor ∉ get_investors st) :
    get_investors (add_investor st investor amt)
      = get_investors st ++ [investor] := by
  simp only [add_investor]
  rw [if_neg h]
  rfl

lemma close_fund_of_state_closed (st : FundSt) (bal1 bal2 : Int)
    (h : st.fundState.getD .Closed = .Closed) :
    close_fund st true bal1 bal2 = .error .alreadyClosed := by
  simp [close_fund, h]

lemma close_fund_ok_state (st st' : FundSt) (authOk : Bool)
    (bal1 bal2 : Int) (tr : List (Addr × Int))
    (h : close_fund st authOk bal1 bal2 = .ok (st', tr)) :
    st'.fundState = some .Closed := by
  simp only [close_fund] at h
  split at h
  · exact absurd h (by simp)
  · split at h
    · exact absurd h (by simp)
    · split at h
      · exact absurd h (by simp)
      · rw [Except.ok.injEq, Prod.mk.injEq] at h
        rw [← h.1]

lemma rdiv_eq_fdiv (a b : Int) (ha : 0 ≤ a) (hb : 0 ≤ b) :
    rdiv a b = Int.fdiv a b := by
  rw [rdiv, Int.fdiv_eq_tdiv ha hb]

lemma investorPayouts_eq_floor (st : FundSt) (total_deposited rb : Int)
    (hD : 0 < total_deposited) (hrb : 0 ≤ rb) (l : List Addr) :
    investorPayouts st total_deposited rb l =
      .ok (l.filterMap fun investor =>
        if depositOf st investor > 0 then
          some (investor,
            payoutFloor (depositOf st investor) total_deposited rb)
        else none) := by
  induction l with
  | nil => simp [investorPayouts]
  | cons investor rest ih =>
      by_cases hd : depositOf st investor > 0
      · have hd100 : (0 : Int) ≤ depositOf st investor * 100 :=
          mul_nonneg (le_of_lt hd) (by norm_num)
        have hpct : rdiv (depositOf st investor * 100) total_deposited =
            Int.fdiv (depositOf st investor * 100) total_deposited :=
          rdiv_eq_fdiv _ _ hd100 (le_of_lt hD)
        have hpctpos :
            (0 : Int) ≤
              Int.fdiv (depositOf st investor * 100) total_deposited :=
          Int.fdiv_nonneg hd100 (le_of_lt hD)
        have hpay :
            rdiv (rb * rdiv (depositOf st investor * 100) total_deposited)
                100 =
              payoutFloor (depositOf st investor) total_deposited rb := by
          rw [hpct, payoutFloor]
          exact rdiv_eq_fdiv _ _ (mul_nonneg hrb hpctpos) (by norm_num)
        simp only [investorPayouts, List.filterMap_cons]
        rw [if_pos hd, if_neg (ne_of_gt hD), ih, if_pos hd, hpay]
      · simp only [investorPayouts, List.filterMap_cons]
        rw [if_neg hd, ih, if_neg hd]

lemma feePhase_mem (st : FundSt) (bal : Int) (p : Addr × Int)
    (hp : p ∈ feePhase st bal) :
    p.1 ∈ get_traders st ∧ allocOf st p.1 > 0 := by
  simp only [feePhase] at hp
  split at hp
  · unfold traderFeeTransfers at hp
    rw [List.mem_filterMap] at hp
    obtain ⟨a, ha, hfa⟩ := hp
    dsimp only at hfa
    by_cases h : allocOf st a > 0
    · rw [if_pos h] at hfa
      rw [Option.some.injEq] at hfa
      rw [← hfa]
      exact ⟨ha, h⟩
    · rw [if_neg h] at hfa
      exact absurd hfa (by simp)
  · exact absurd hp (by simp)

lemma investorPayouts_mem (st : FundSt) (D rb : Int) (l : List Addr) :
    ∀ out : List (Addr × Int), investorPayouts st D rb l = .ok out →
      ∀ p ∈ out, p.1 ∈ l ∧ depositOf st p.1 > 0 := by
  induction l with
  | nil =>
      intro out h p hp
      simp only [investorPayouts, Except.ok.injEq] at h
      rw [← h] at hp
      exact absurd hp (by simp)
  | cons a rest ih =>
      intro out h p hp
      simp only [investorPayouts] at h
      by_cases hd : depositOf st a > 0
      · rw [if_pos hd] at h
        by_cases hD : D = 0
        · rw [if_pos hD] at h
          exact absurd h (by simp)
        · rw [if_neg hD] at h
          cases hrec : investorPayouts st D rb rest with
          | error e =>
              rw [hrec] at h
              exact absurd h (by simp)
          | ok tail =>
              rw [hrec] at h
              rw [Except.ok.injEq] at h
              rw [← h] at hp
              rcases List.mem_cons.mp hp with hhead | htail
              · rw [hhead]
                exact ⟨List.mem_cons_self a rest, hd⟩
              · obtain ⟨h1, h2⟩ := ih tail hrec p htail
                exact ⟨List.mem_cons_of_mem a h1, h2⟩
      · rw [if_neg hd] at h
        obtain ⟨h1, h2⟩ := ih out h p hp
        exact ⟨List.mem_cons_of_mem a h1, h2⟩

/-- C1: for every close_fund execution from a non-Closed state with
stored TotalDeposited D > 0 and a nonnegative residual balance, the
call succeeds and each investor in registry order with recorded
deposit d > 0 is paid exactly
floor(remaining_balance * floor(d * 100 / D) / 100), the two floor
divisions truncating independently (payoutsFloorSpec).  The witness
instantiates the truncation scenario of the specification: deposits 1
and 2, D = 3, remaining balance 10, payouts exactly 3 and 6, leaving
1 unit of dust unpaid. -/
theorem c1_residual_floor_distribution (st : FundSt) (bal1 bal2 : Int)
    (hstate : st.fundState.getD .Closed ≠ .Closed)
    (hD : 0 < st.totalDeposited.getD 0) (hbal : 0 ≤ bal2) :
    close_fund st true bal1 bal2 =
      .ok ({ st with fundState := some .Closed },
        feePhase st bal1 ++
          payoutsFloorSpec st (st.totalDeposited.getD 0) bal2) := by
  simp only [close_fund]
  rw [if_neg (by decide : ¬(true = false))]
  rw [if_neg hstate]
  rw [investorPayouts_eq_floor st _ bal2 hD hbal]
  rfl

/-- C1 witness: the concrete truncation scenario, with the theorem
applied at stC1 and both balance reads equal to 10: investor 1 gets 3,
investor 2 gets 6, and the remaining 1 unit stays in the fund. -/
theorem c1_residual_floor_distribution_witness :
    close_fund stC1 true 10 10 =
      .ok ({ stC1 with fundState := some .Closed }, [(1, 3), (2, 6)]) := by
  have h := c1_residual_floor_distribution stC1 10 10 (by decide) (by decide)
    (by decide)
  rw [h]
  decide

/-- C2 (code_bug): from a non-Closed state with TotalDeposited read as
0, close_fund does NOT skip the residual distribution; as soon as one
investor has a positive recorded deposit, the code divides by the zero
total and panics.  The run below is produced purely by the entry
points (create, then add_investor of 100, then close_fund): since
add_investor never writes TotalDeposited, the stored total is still
unset at closure and the call aborts with a division by zero. -/
theorem c2_close_fund_divides_by_zero :
    Except.bind (create emptyFund 0 10 9)
        (fun st1 => close_fund (add_investor st1 1 100) true 100 100) =
      .error .divisionByZero := by
  decide

/-- C3 (code_bug): add_investor leaves the stored TotalDeposited
untouched for every state, investor and amount, so the total read by
close_fund stays 0 after any deposit; concretely, after create and a
deposit of 100 the stored total still reads as 0, not 100. -/
theorem c3_total_deposited_not_incremented :
    (∀ (st : FundSt) (investor : Addr) (amt : Int),
      (add_investor st investor amt).totalDeposited = st.totalDeposited) ∧
    Except.map (fun st1 => (add_investor st1 1 100).totalDeposited.getD 0)
        (create emptyFund 0 10 9) = .ok 0 := by
  refine ⟨totalDeposited_add_investor, ?_⟩
  decide

/-- C4 (code_bug): the fund state does regress under the exposed entry
points.  In the run below, create initializes the fund, close_fund
moves the state to Closed, and a second create call silently resets
the state to OpenToInvestors: Closed is not terminal when create is
among the calls. -/
theorem c4_create_reopens_closed_fund :
    Except.bind (create emptyFund 0 10 9) (fun st1 =>
      Except.bind (close_fund st1 true 0 0) (fun p =>
        Except.map FundSt.fundState (create p.1 0 10 9))) =
      .ok (some .OpenToInvestors) ∧
    Except.bind (create emptyFund 0 10 9) (fun st1 =>
      Except.map (fun p => p.1.fundState) (close_fund st1 true 0 0)) =
      .ok (some .Closed) := by
  decide

/-- C5: when the stored state is Closed, an authenticated close_fund
call fails with the already-closed error (an aborted invocation:
no transfer output, no storage write); and after any successful
close_fund, whose result state is always Closed, a second call fails
the same way whatever balances the token contract reports. -/
theorem c5_already_closed_guard :
    (∀ (st : FundSt) (bal1 bal2 : Int), st.fundState = some .Closed →
      close_fund st true bal1 bal2 = .error .alreadyClosed) ∧
    (∀ (st st' : FundSt) (tr : List (Addr × Int))
      (bal1 bal2 bal1' bal2' : Int),
      close_fund st true bal1 bal2 = .ok (st', tr) →
      close_fund st' true bal1' bal2' = .error .alreadyClosed) := by
  constructor
  · intro st b1 b2 h
    exact close_fund_of_state_closed st b1 b2 (by rw [h]; rfl)
  · intro st st' tr b1 b2 b1' b2' h
    exact close_fund_of_state_closed st' b1' b2'
      (by rw [close_fund_ok_state st st' true b1 b2 tr h]; rfl)

/-- C5 witness: both parts applied concretely; the second part is fed
the successful closure of a freshly created empty fund. -/
theorem c5_already_closed_guard_witness :
    close_fund { emptyFund with fundState := some FundState.Closed } true 0 0 =
      .error .alreadyClosed ∧
    close_fund { emptyFund with fundState := some FundState.Closed } true 1 1 =
      .error .alreadyClosed := by
  constructor
  · exact c5_already_closed_guard.1 _ 0 0 rfl
  · exact c5_already_closed_guard.2
      { emptyFund with fundState := some FundState.OpenToInvestors } _ [] 0 0 1 1
      (by decide)

/-- C6 counterexample: create accepts a negative performance fee.  The
call create(manager = 0, performance_fee_percent = -1, token = 9)
succeeds and stores the negative percentage, contradicting the claim
that every value outside [0, 100) fails with InvalidParameter. -/
theorem c6_counterexample_negative_fee :
    create emptyFund 0 (-1) 9 =
      .ok { emptyFund with
        fundState := some .OpenToInvestors, manager := some 0,
        tradingAllocation := [(0, 0)], performanceFeePercent := some (-1),
        token := some 9, traders := some [0], investors := some [] } := by
  decide

/-- C6 (amended): create succeeds exactly when
performance_fee_percent < 100 — the assert checks only the upper
bound, so every negative value is accepted — and for every value of
at least 100 it aborts with the invalid-parameter panic, leaving no
state behind. -/
theorem c6_fee_bound (st : FundSt) (m : Addr) (fee : Int) (tok : Addr) :
    (fee < 100 → create st m fee tok =
      .ok { st with
        fundState := some .OpenToInvestors, manager := some m,
        tradingAllocation := setVal st.tradingAllocation m 0,
        performanceFeePercent := some fee, token := some tok,
        traders := some [m], investors := some [] }) ∧
    (100 ≤ fee → create st m fee tok = .error .invalidParameter) := by
  constructor
  · intro h
    unfold create
    rw [if_pos h]
  · intro h
    unfold create
    rw [if_neg (not_lt.mpr h)]

/-- C6 witness: the amended bound applied at fee 50 (accepted) and at
fee 150 (rejected). -/
theorem c6_fee_bound_witness :
    create emptyFund 0 50 9 =
      .ok { emptyFund with
        fundState := some .OpenToInvestors, manager := some 0,
        tradingAllocation := setVal emptyFund.tradingAllocation 0 0,
        performanceFeePercent := some 50, token := some 9,
        traders := some [0], investors := some [] } ∧
    create emptyFund 0 150 9 = .error .invalidParameter :=
  ⟨(c6_fee_bound emptyFund 0 50 9).1 (by decide),
   (c6_fee_bound emptyFund 0 150 9).2 (by decide)⟩

/-- C7 counterexample: a zero-amount transfer is invoked.  In stC7 the
single investor has recorded deposit 1 while TotalDeposited is stored
as 10 and both balance reads are 5, so the computed payout is
floor(5 * floor(1 * 100 / 10) / 100) = 0 — yet the transfer is
performed, because the guard in the code is deposit_amt > 0, not
payout > 0. -/
theorem c7_counterexample_zero_amount_transfer :
    close_fund stC7 true 5 5 =
      .ok ({ stC7 with fundState := some .Closed }, [(1, 0)]) := by
  decide

/-- C7 (amended): in every successful close_fund, each invoked
transfer goes either to a registered trader whose stored allocation is
strictly positive or to a registered investor whose recorded deposit
is strictly positive; the amount itself is not checked, so zero-amount
transfers can occur when the fee or payout truncates to zero. -/
theorem c7_transfer_guards (st : FundSt) (authOk : Bool) (bal1 bal2 : Int)
    (st' : FundSt) (tr : List (Addr × Int))
    (h : close_fund st authOk bal1 bal2 = .ok (st', tr)) :
    ∀ p ∈ tr, (p.1 ∈ get_traders st ∧ allocOf st p.1 > 0) ∨
      (p.1 ∈ get_investors st ∧ depositOf st p.1 > 0) := by
  intro p hp
  simp only [close_fund] at h
  split at h
  · exact absurd h (by simp)
  · split at h
    · exact absurd h (by simp)
    · split at h
      · exact absurd h (by simp)
      · rename_i payouts hrec
        rw [Except.ok.injEq, Prod.mk.injEq] at h
        rw [← h.2] at hp
        rcases List.mem_append.mp hp with hf | hinv
        · exact Or.inl (feePhase_mem st bal1 p hf)
        · exact Or.inr
            (investorPayouts_mem st (st.totalDeposited.getD 0) bal2
              (get_investors st) payouts hrec p hinv)

/-- C7 witness: the amended guard applied to the concrete stC7 run,
whose single (zero-amount) transfer goes to investor 1 with positive
recorded deposit. -/
theorem c7_transfer_guards_witness :
    ((1 : Addr) ∈ get_traders stC7 ∧ allocOf stC7 1 > 0) ∨
      ((1 : Addr) ∈ get_investors stC7 ∧ depositOf stC7 1 > 0) :=
  c7_transfer_guards stC7 true 5 5 { stC7 with fundState := some .Closed }
    [(1, 0)] (by decide) (1, 0) (by decide)

/-- C8 counterexample: add_investor does not fail on a Closed fund or
on a negative amount, and it does mutate storage: on the Closed fund
stC8, add_investor(1, -50) succeeds and lowers the recorded deposit of
investor 1 from 100 to 50. -/
theorem c8_counterexample_closed_negative :
    add_investor stC8 1 (-50) =
      { stC8 with investorDeposit := [(1, 50)] } := by
  decide

/-- C8 (amended): add_investor is totally unchecked: for every state
(including Closed) and every amount (including negative ones) it
succeeds, changing the recorded deposit of the investor by exactly the
given amount — so recorded deposits can decrease and deposits are
recorded after closure — while the fund state is left as it was. -/
theorem c8_add_investor_unchecked :
    ∀ (st : FundSt) (investor : Addr) (amt : Int),
      depositOf (add_investor st investor amt) investor =
        depositOf st investor + amt ∧
      (add_investor st investor amt).fundState = st.fundState :=
  fun st investor amt =>
    ⟨depositOf_add_investor st investor amt,
     fundState_add_investor st investor amt⟩

/-- C9: for an address not yet in the registry and with no recorded
deposit, two successive add_investor calls with amounts a and b leave
the address exactly once in the investor registry and record the
deposit a + b; a further call still leaves the address exactly once,
so repeated calls never duplicate an address. -/
theorem c9_deposits_accumulate_membership_once (st : FundSt)
    (investor : Addr) (a b : Int) (hmem : investor ∉ get_investors st)
    (hdep : depositOf st investor = 0) :
    List.count investor
        (get_investors (add_investor (add_investor st investor a) investor b))
      = 1 ∧
    depositOf (add_investor (add_investor st investor a) investor b) investor
      = a + b ∧
    ∀ c : Int,
      List.count investor
          (get_investors (add_investor
            (add_investor (add_investor st investor a) investor b)
            investor c))
        = 1 := by
  have h1 : get_investors (add_investor st investor a)
      = get_investors st ++ [investor] :=
    get_investors_add_investor_not_mem st investor a hmem
  have hmem1 : investor ∈ get_investors (add_investor st investor a) := by
    rw [h1]
    exact List.mem_append_right _ (List.mem_singleton.mpr rfl)
  have h2 : get_investors (add_investor (add_investor st investor a)
      investor b) = get_investors (add_investor st investor a) :=
    get_investors_add_investor_mem _ investor b hmem1
  have hcount : List.count investor (get_investors st ++ [investor]) = 1 := by
    rw [List.count_append, List.count_eq_zero_of_not_mem hmem]
    simp
  refine ⟨?_, ?_, ?_⟩
  · rw [h2, h1, hcount]
  · rw [depositOf_add_investor, depositOf_add_investor, hdep, zero_add]
  · intro c
    have hmem2 : investor ∈
        get_investors (add_investor (add_investor st investor a) investor b) :=
      by rw [h2]; exact hmem1
    rw [get_investors_add_investor_mem _ investor c hmem2, h2, h1, hcount]

/-- C9 witness: from the fresh fund, add_investor(5, 100) then
add_investor(5, 50) leaves address 5 exactly once in the registry with
recorded deposit 150. -/
theorem c9_deposits_accumulate_membership_once_witness :
    List.count 5
        (get_investors (add_investor (add_investor emptyFund 5 100) 5 50))
      = 1 ∧
    depositOf (add_investor (add_investor emptyFund 5 100) 5 50) 5 = 150 := by
  obtain ⟨h1, h2, -⟩ :=
    c9_deposits_accumulate_membership_once emptyFund 5 100 50 (by decide)
      (by decide)
  exact ⟨h1, by rw [h2]; decide⟩

/-- C10: when no FundState value was ever stored (create never ran),
close_fund reads the missing state as Closed and aborts with the
already-closed error, performing no transfer and writing nothing: an
uninitialized fund can never be successfully closed. -/
theorem c10_uninitialized_fund_close (st : FundSt) (bal1 bal2 : Int)
    (h : st.fundState = none) :
    close_fund st true bal1 bal2 = .error .alreadyClosed :=
  close_fund_of_state_closed st bal1 bal2 (by rw [h]; rfl)

/-- C10 witness: the theorem applied to the completely empty storage. -/
theorem c10_uninitialized_fund_close_witness :
    close_fund emptyFund true 0 0 = .error .alreadyClosed :=
  c10_uninitialized_fund_close emptyFund 0 0 rfl

end StellarFund
